import Mathlib

/-
Verification of the views_perf_monitor storage-and-aggregation engine
(`views_perf_monitor/backends/redis.py`, `stats.py`, `filters.py`,
`backends/__init__.py`, `models.py`).

Modelling conventions of this shallow embedding:
* Python floats (request durations, averages, rates) are modelled as `ℚ`
  (rationals); the code performs only +, /, min, max, comparison and round
  on them, and every number in the claims is exactly representable.
* Datetimes are modelled as `Int` epoch-milliseconds (the unit the backend
  itself converts datetimes into when building Redis stream ids).
* Fallible Python expressions (list indexing, redis-py argument checks,
  getattr of an unknown sort attribute, iterating a non-iterable) are
  modelled with `Except PyErr`.
* Redis hashes keyed by strings become Lean functions `String → Option _`
  (`none` = hash absent); Redis streams become Lean lists in insertion
  order; the server-assigned entry id of a stream entry is the record
  timestamp in milliseconds (records are appended live, in real time,
  which is the regime in which the stream-id range scan of
  `fetch` corresponds to a timestamp filter).
-/

namespace VPM

/-- Python exceptions that the modelled code can raise. -/
inductive PyErr where
  | indexError
  | typeError
  | dataError
  | attributeError
  deriving DecidableEq, Repr

instance {ε α : Type} [DecidableEq ε] [DecidableEq α] : DecidableEq (Except ε α) := fun a b =>
  match a, b with
  | Except.ok x, Except.ok y =>
    if h : x = y then isTrue (by rw [h]) else isFalse (fun hc => h (by injection hc))
  | Except.error x, Except.error y =>
    if h : x = y then isTrue (by rw [h]) else isFalse (fun hc => h (by injection hc))
  | Except.ok _, Except.error _ => isFalse (fun hc => Except.noConfusion hc)
  | Except.error _, Except.ok _ => isFalse (fun hc => Except.noConfusion hc)

/-- Python `math.ceil` on an exact rational, computed through the executable
floor of `Rat`. -/
def pyCeil (q : ℚ) : ℤ := -((-q).floor)

/-- The executable ceiling agrees with the mathematical ceiling. -/
theorem pyCeil_eq_ceil (q : ℚ) : pyCeil q = ⌈q⌉ := by
  have h : ⌊-q⌋ = (-q).floor := rfl
  rw [pyCeil, ← h, Int.floor_neg, neg_neg]

/-- Python list subscription `l[i]` on a list of rationals: negative indices
address from the end, out-of-range access raises IndexError. -/
def pyListGet (l : List ℚ) (i : ℤ) : Except PyErr ℚ :=
  if h : 0 ≤ i ∧ i.toNat < l.length then
    Except.ok (l.get ⟨i.toNat, h.2⟩)
  else if h2 : i < 0 ∧ (i + l.length).toNat < l.length ∧ 0 ≤ i + l.length then
    Except.ok (l.get ⟨(i + l.length).toNat, h2.2.1⟩)
  else
    Except.error PyErr.indexError

/-- The nearest-rank index `max(0, ceil(p / 100 * n) - 1)` computed by
`_percentile` (stats.py line 17 / redis.py line 655). -/
def percentileIdx (p : ℚ) (n : ℕ) : ℤ :=
  max 0 (pyCeil (p / 100 * n) - 1)

/-- Model of `_percentile(sorted_durations, p)` (stats.py lines 13-18; an
identical copy lives at redis.py lines 652-656): nearest-rank percentile on a
pre-sorted list; empty input yields 0, and the list subscription raises
IndexError when the computed index falls outside the list. -/
def percentile (sorted_durations : List ℚ) (p : ℚ) : Except PyErr ℚ :=
  if sorted_durations = [] then
    Except.ok 0
  else
    pyListGet sorted_durations (percentileIdx p sorted_durations.length)

/-- One measurement record (models.py `PerformanceRecord`, lines 43-51). -/
structure PerformanceRecord where
  request_id : String
  timestamp : Int
  duration : ℚ
  route : String
  status_code : Int
  method : String
  tags : List String
  deriving DecidableEq, Repr

/-- The per-route counter hash (fields written by `save`,
redis.py lines 124-130). `none` for min/max means the hash field is absent. -/
structure RouteRow where
  count : ℕ
  total_duration : ℚ
  error_count : ℕ
  min_duration : Option ℚ
  max_duration : Option ℚ
  deriving DecidableEq, Repr

/-- The per-tag counter hash (redis.py lines 141-144). -/
structure TagRow where
  count : ℕ
  total_duration : ℚ
  min_duration : Option ℚ
  max_duration : Option ℚ
  deriving DecidableEq, Repr

/-- The per-route-and-tag counter hash (redis.py lines 146-149). -/
structure RouteTagRow where
  count : ℕ
  total_duration : ℚ
  deriving DecidableEq, Repr

/-- The global counter hash (redis.py lines 120-122). -/
structure GlobalRow where
  count : ℕ
  total_duration : ℚ
  error_count : ℕ
  deriving DecidableEq, Repr

/-- A JSON value, the decode result of a stored cache payload. -/
inductive PyJson where
  | null
  | bool (b : Bool)
  | num (q : ℚ)
  | str (s : String)
  | arr (items : List PyJson)
  | obj (fields : List (String × PyJson))

/-- A string stored under a cache key, modelled by its `json.loads` outcome:
the empty string (falsy, treated as a miss before any decoding), a nonempty
string raising JSONDecodeError, or a nonempty string decoding to a value. -/
inductive CacheEntry where
  | emptyStr
  | badJson
  | json (j : PyJson)

/-- The entire Redis keyspace owned by the backend. Streams are lists in
insertion order; hashes keyed by a string are functions into `Option`. -/
structure Store where
  mainStream : List PerformanceRecord
  tagStreams : String → List PerformanceRecord
  routeStreams : String → List PerformanceRecord
  tagIndex : List String
  routeIndex : List String
  globalRow : GlobalRow
  routeRows : String → Option RouteRow
  tagRows : String → Option TagRow
  routeTagRows : String → String → Option RouteTagRow
  hourlyCounts : Int → ℕ
  statusCounts : Int → ℕ
  recordingFlag : Option String
  cache : String → Option CacheEntry
  maxStreamLength : ℕ

/-- A freshly constructed backend against an empty Redis (default
max_stream_length = 1,000,000; the recording flag was never set). -/
def emptyStore : Store :=
  { mainStream := []
    tagStreams := fun _ => []
    routeStreams := fun _ => []
    tagIndex := []
    routeIndex := []
    globalRow := ⟨0, 0, 0⟩
    routeRows := fun _ => none
    tagRows := fun _ => none
    routeTagRows := fun _ _ => none
    hourlyCounts := fun _ => 0
    statusCounts := fun _ => 0
    recordingFlag := none
    cache := fun _ => none
    maxStreamLength := 1000000 }

/-- Python `str.lower()` (restricted to the characters the code compares). -/
def pyLower (s : String) : String := String.map Char.toLower s

/-- Model of `is_recording_enabled` (redis.py lines 627-633): default to
enabled when the key was never set, otherwise accept "true"/"1"/"yes"
case-insensitively. -/
def is_recording_enabled (st : Store) : Bool :=
  match st.recordingFlag with
  | none => true
  | some v => (pyLower v == "true") || (pyLower v == "1") || (pyLower v == "yes")

/-- Model of `enable_recording` (redis.py lines 635-637). -/
def enable_recording (st : Store) : Store := { st with recordingFlag := some "true" }

/-- Model of `disable_recording` (redis.py lines 639-641). -/
def disable_recording (st : Store) : Store := { st with recordingFlag := some "false" }

/-- Stream XADD with MAXLEN trimming (the code passes approximate=True;
modelled as an exact cap, which never differs below the cap). -/
def capAppend (l : List PerformanceRecord) (r : PerformanceRecord) (maxlen : ℕ) :
    List PerformanceRecord :=
  let l2 := l ++ [r]
  l2.drop (l2.length - maxlen)

/-- Redis SADD of one member, on a set modelled as a duplicate-free list in
insertion order. -/
def sadd (s : List String) (x : String) : List String :=
  if x ∈ s then s else s ++ [x]

/-- The min half of the update_min_max Lua script (redis.py lines 74-88):
set when the field is absent or greater than the new value. -/
def luaMin (cur : Option ℚ) (d : ℚ) : Option ℚ :=
  match cur with
  | none => some d
  | some m => if m > d then some d else some m

/-- The max half of the update_min_max Lua script. -/
def luaMax (cur : Option ℚ) (d : ℚ) : Option ℚ :=
  match cur with
  | none => some d
  | some m => if m < d then some d else some m

/-- The per-route counter updates of one `save` (redis.py lines 124-130):
HINCRBY count, HINCRBYFLOAT total_duration, HINCRBY error_count, then the
atomic min/max script. Absent hash fields start from 0 / unset. -/
def bumpRouteRow (row : Option RouteRow) (d : ℚ) (isErr : Bool) : RouteRow :=
  let r := row.getD ⟨0, 0, 0, none, none⟩
  { count := r.count + 1
    total_duration := r.total_duration + d
    error_count := r.error_count + (if isErr then 1 else 0)
    min_duration := luaMin r.min_duration d
    max_duration := luaMax r.max_duration d }

/-- The per-tag counter updates of one `save` (redis.py lines 141-144). -/
def bumpTagRow (row : Option TagRow) (d : ℚ) : TagRow :=
  let r := row.getD ⟨0, 0, none, none⟩
  { count := r.count + 1
    total_duration := r.total_duration + d
    min_duration := luaMin r.min_duration d
    max_duration := luaMax r.max_duration d }

/-- The per-route-and-tag counter updates of one `save`
(redis.py lines 146-149). -/
def bumpRouteTagRow (row : Option RouteTagRow) (d : ℚ) : RouteTagRow :=
  let r := row.getD ⟨0, 0⟩
  { count := r.count + 1, total_duration := r.total_duration + d }

/-- The hour bucket of a timestamp (`strftime("%Y-%m-%dT%H:00")`, modelled
as the hour index since the epoch — both are injective on UTC hours). -/
def hourBucket (ms : Int) : Int := Int.fdiv ms 3600000

/-- The body of the per-tag loop of `save` (redis.py lines 134-149): append
to the tag stream and bump the tag and route-tag counter rows. Duplicate
tags run the body once per occurrence. -/
def saveTagStep (route : String) (record : PerformanceRecord) (maxlen : ℕ)
    (st : Store) (tag : String) : Store :=
  { st with
    tagStreams := fun k =>
      if k = tag then capAppend (st.tagStreams k) record maxlen else st.tagStreams k
    tagRows := fun k =>
      if k = tag then some (bumpTagRow (st.tagRows k) record.duration) else st.tagRows k
    routeTagRows := fun r k =>
      if r = route ∧ k = tag then some (bumpRouteTagRow (st.routeTagRows r k) record.duration)
      else st.routeTagRows r k }

/-- Model of `save` (redis.py lines 90-159): no-op while recording is
disabled; otherwise append to the main stream, bump the hourly, status-code,
global and per-route counters, run the per-tag loop when tags are nonempty,
and finally index and append the route stream. The pipeline commands commute
on the modelled state, so sequential application realizes the single
logically atomic unit. -/
def save (st : Store) (record : PerformanceRecord) : Store :=
  if is_recording_enabled st then
    let isErr : Bool := decide (record.status_code ≥ 400)
    let hourB := hourBucket record.timestamp
    let st1 : Store :=
      { st with
        mainStream := capAppend st.mainStream record st.maxStreamLength
        hourlyCounts := fun h =>
          if h = hourB then st.hourlyCounts h + 1 else st.hourlyCounts h
        statusCounts := fun c =>
          if c = record.status_code then st.statusCounts c + 1 else st.statusCounts c
        globalRow :=
          { count := st.globalRow.count + 1
            total_duration := st.globalRow.total_duration + record.duration
            error_count := st.globalRow.error_count + (if isErr then 1 else 0) }
        routeRows := fun k =>
          if k = record.route then some (bumpRouteRow (st.routeRows k) record.duration isErr)
          else st.routeRows k }
    let st2 : Store :=
      if record.tags.isEmpty then st1
      else
        record.tags.foldl (saveTagStep record.route record st.maxStreamLength)
          { st1 with tagIndex := record.tags.foldl sadd st1.tagIndex }
    { st2 with
      routeIndex := sadd st2.routeIndex record.route
      routeStreams := fun k =>
        if k = record.route then capAppend (st2.routeStreams k) record st.maxStreamLength
        else st2.routeStreams k }
  else st

/-- A sequence of writes against a store. -/
def saveAll (st : Store) (records : List PerformanceRecord) : Store :=
  records.foldl save st

/-- Little-endian decimal digits of a natural number (units digit first). -/
def natDigits (n : ℕ) : List ℕ :=
  if h : n < 10 then [n]
  else (n % 10) :: natDigits (n / 10)
termination_by n
decreasing_by
  simp_wf
  exact Nat.div_lt_self (by omega) (by omega)

/-- Decode little-endian decimal digits back to the number. -/
def fromDigits : List ℕ → ℕ
  | [] => 0
  | d :: ds => d + 10 * fromDigits ds

theorem fromDigits_natDigits (n : ℕ) : fromDigits (natDigits n) = n := by
  induction n using natDigits.induct with
  | case1 n h => rw [natDigits, dif_pos h]; simp [fromDigits]
  | case2 n h ih =>
    rw [natDigits, dif_neg h]
    simp only [fromDigits, ih]
    omega

theorem natDigits_inj {a b : ℕ} (h : natDigits a = natDigits b) : a = b := by
  rw [← fromDigits_natDigits a, ← fromDigits_natDigits b, h]

theorem natDigits_ne_nil (n : ℕ) : natDigits n ≠ [] := by
  rw [natDigits]
  split <;> simp

theorem natDigits_lt_ten (n : ℕ) : ∀ d ∈ natDigits n, d < 10 := by
  induction n using natDigits.induct with
  | case1 n h => rw [natDigits, dif_pos h]; simpa using h
  | case2 n h ih =>
    rw [natDigits, dif_neg h]
    intro d hd
    rcases List.mem_cons.mp hd with h1 | h2
    · subst h1; exact Nat.mod_lt n (by omega)
    · exact ih d h2

/-- Render one decimal digit as a character. -/
def digitChar (d : ℕ) : Char := Char.ofNat (48 + d)

theorem digitChar_inj : ∀ d < 10, ∀ e < 10, digitChar d = digitChar e → d = e := by decide

theorem digitChar_ne_minus : ∀ d < 10, digitChar d ≠ '-' := by decide

theorem map_digitChar_inj :
    ∀ (l1 l2 : List ℕ), (∀ d ∈ l1, d < 10) → (∀ d ∈ l2, d < 10) →
      l1.map digitChar = l2.map digitChar → l1 = l2 := by
  intro l1
  induction l1 with
  | nil => intro l2 _ _ h; cases l2 <;> simp_all
  | cons a as ih =>
    intro l2 h1 h2 h
    cases l2 with
    | nil => simp_all
    | cons b bs =>
      simp only [List.map_cons, List.cons.injEq] at h
      have ha : a < 10 := h1 a (by simp)
      have hb : b < 10 := h2 b (by simp)
      have : a = b := digitChar_inj a ha b hb h.1
      rw [this, ih bs (fun d hd => h1 d (by simp [hd])) (fun d hd => h2 d (by simp [hd])) h.2]

/-- Python `str(n)` for a natural number. -/
def natStr (n : ℕ) : String := String.mk ((natDigits n).reverse.map digitChar)

/-- Python `str(i)` for an integer: minus sign for negatives. -/
def intStr (i : Int) : String :=
  if i < 0 then String.mk ('-' :: ((natDigits (-i).toNat).reverse.map digitChar))
  else natStr i.toNat

theorem natStr_data_inj {a b : ℕ}
    (h : (natDigits a).reverse.map digitChar = (natDigits b).reverse.map digitChar) :
    a = b := by
  have hrev := map_digitChar_inj _ _
    (fun d hd => natDigits_lt_ten a d (List.mem_reverse.mp hd))
    (fun d hd => natDigits_lt_ten b d (List.mem_reverse.mp hd)) h
  exact natDigits_inj (List.reverse_inj.mp hrev)

theorem natStr_head_ne_minus (n : ℕ) :
    ∀ rest, (natDigits n).reverse.map digitChar ≠ '-' :: rest := by
  intro rest h
  have hne : (natDigits n).reverse ≠ [] := by
    simp [List.reverse_eq_nil_iff, natDigits_ne_nil n]
  cases hrev : (natDigits n).reverse with
  | nil => exact hne hrev
  | cons d ds =>
    rw [hrev, List.map_cons] at h
    have hd : d ∈ natDigits n := List.mem_reverse.mp (by rw [hrev]; simp)
    have hhead : digitChar d = '-' := by injection h
    exact digitChar_ne_minus d (natDigits_lt_ten n d hd) hhead

/-- Python integer rendering is injective: distinct integers print as
distinct strings. -/
theorem intStr_inj {i j : Int} (h : intStr i = intStr j) : i = j := by
  rw [intStr, intStr] at h
  by_cases hi : i < 0 <;> by_cases hj : j < 0
  · rw [if_pos hi, if_pos hj] at h
    have hdata : ('-' :: ((natDigits (-i).toNat).reverse.map digitChar)) =
        ('-' :: ((natDigits (-j).toNat).reverse.map digitChar)) := by
      injection h
    have := natStr_data_inj (by injection hdata)
    omega
  · rw [if_pos hi, if_neg hj] at h
    have hdata : ('-' :: ((natDigits (-i).toNat).reverse.map digitChar)) =
        ((natDigits j.toNat).reverse.map digitChar) := by
      rw [natStr] at h
      injection h
    exact absurd hdata.symm (natStr_head_ne_minus _ _)
  · rw [if_neg hi, if_pos hj] at h
    have hdata : ('-' :: ((natDigits (-j).toNat).reverse.map digitChar)) =
        ((natDigits i.toNat).reverse.map digitChar) := by
      rw [natStr] at h
      exact (by injection h.symm)
    exact absurd hdata.symm (natStr_head_ne_minus _ _)
  · rw [if_neg hi, if_neg hj, natStr, natStr] at h
    have := natStr_data_inj (show _ = _ by injection h)
    omega

theorem natStr_ne_empty (n : ℕ) : natStr n ≠ "" := by
  rw [natStr]
  intro h
  have : (natDigits n).reverse.map digitChar = [] := by
    have := congrArg String.data h
    simpa using this
  simp [List.reverse_eq_nil_iff, natDigits_ne_nil n] at this

/-- Python rendering of an integer is never the empty string. -/
theorem intStr_ne_empty (i : Int) : intStr i ≠ "" := by
  rw [intStr]
  split
  · intro h
    have := congrArg String.data h
    simp at this
  · exact natStr_ne_empty _

/-- Model of `datetime.isoformat()`: an injective text rendering of the
instant (modelled as the decimal rendering of the epoch-millisecond value;
the analysis relies only on injectivity and nonemptiness, which ISO-8601
datetime strings share). -/
def isoformat (ms : Int) : String := intStr ms

/-- A query built by the PerformanceRecordQueryBuilder hierarchy
(backends/__init__.py lines 13-75), flattened: the filter attributes that
only exist on a subclass instance are `Option` fields, `none` standing for
the attribute being absent (`getattr(query, ..., None)`). -/
structure Query where
  tag : Option String
  route : Option String
  since : Option Int
  until_ : Option Int
  order_by_field : Option String
  order_direction : String
  limit_records : Option Int
  route_filter : Option String
  tag_filter : Option String
  status_code_filter : Option Int
  deriving DecidableEq, Repr

/-- The query produced by `PerformanceRecordQueryBuilder.all()`. -/
def queryAll : Query :=
  { tag := none, route := none, since := none, until_ := none
    order_by_field := none, order_direction := "desc", limit_records := none
    route_filter := none, tag_filter := none, status_code_filter := none }

/-- Python truthiness of an optional string: None and "" are falsy. -/
def truthyStr : Option String → Option String
  | some s => if s = "" then none else some s
  | none => none

/-- Python truthiness of an optional integer: None and 0 are falsy. -/
def truthyInt : Option Int → Option Int
  | some n => if n = 0 then none else some n
  | none => none

/-- The key part an optional datetime contributes
(`query.since.isoformat() if query.since else ""`). -/
def optIso : Option Int → String
  | some t => isoformat t
  | none => ""

/-- The key part the limit contributes (`str(query.limit_records or "")`:
None and 0 both serialize as the empty string). -/
def limitStr (l : Option Int) : String :=
  match truthyInt l with
  | some n => intStr n
  | none => ""

/-- The key part the status-code filter contributes
(`str(getattr(query, "status_code_filter", "") or "")`). -/
def statusStr (c : Option Int) : String :=
  match truthyInt c with
  | some n => intStr n
  | none => ""

/-- Model of `_get_cache_key` (redis.py lines 562-581): the "|"-joined key
parts, each Python-falsy field contributing the empty string. The real key
is `perf:cache:<op>:<md5 hex of this string>`: equal part-strings give equal
cache keys, and distinct part-strings give distinct keys up to an MD5
collision. The cache map of the model is keyed by this string. -/
def cacheKeyString (operation : String) (q : Query) : String :=
  operation ++ "|" ++ q.tag.getD "" ++ "|" ++ q.route.getD "" ++ "|" ++
    optIso q.since ++ "|" ++ optIso q.until_ ++ "|" ++
    q.order_by_field.getD "" ++ "|" ++ q.order_direction ++ "|" ++
    limitStr q.limit_records ++ "|" ++
    q.route_filter.getD "" ++ "|" ++ q.tag_filter.getD "" ++ "|" ++
    statusStr q.status_code_filter

/-- Lexicographic comparison of char lists by code point, Python's string
order. -/
def charListLe : List Char → List Char → Bool
  | [], _ => true
  | _ :: _, [] => false
  | a :: as, b :: bs =>
    if a.toNat < b.toNat then true
    else if b.toNat < a.toNat then false
    else charListLe as bs

/-- Python string comparison `a <= b`. -/
def pyStrLe (a b : String) : Bool := charListLe a.data b.data

/-- Python `sorted` over strings (stable mergesort, code-point order). -/
def sortedStrings (l : List String) : List String := l.mergeSort pyStrLe

/-- Model of `get_all_tags` (redis.py lines 165-166). -/
def get_all_tags (st : Store) : List String := sortedStrings st.tagIndex

/-- Model of `get_all_routes` (redis.py lines 168-169). -/
def get_all_routes (st : Store) : List String := sortedStrings st.routeIndex

/-- Python `round(q)` to an integer: round half to even, computed through
the executable rational floor. -/
def pyRoundHalfEven (q : ℚ) : ℤ :=
  let f := q.floor
  let frac := q - f
  if frac < 1 / 2 then f
  else if 1 / 2 < frac then f + 1
  else if f % 2 = 0 then f else f + 1

/-- Python `round(q, 2)` on the exact value (Python rounds the binary
double; on the exactly representable values of the claims, and on any value
away from a two-decimal tie, the two agree). -/
def round2 (q : ℚ) : ℚ := (pyRoundHalfEven (q * 100) : ℚ) / 100

/-- The error_rate expression of `_get_aggregated_route_stats`
(redis.py line 365): `round(error_count / count * 100, 2)` when count is
positive, 0 otherwise. -/
def errorRateAgg (error_count count : ℕ) : ℚ :=
  if count > 0 then round2 ((error_count : ℚ) / count * 100) else 0

/-- Result row of routes statistics (models.py `RouteStats`). -/
structure RouteStats where
  route : String
  avg : ℚ
  count : ℕ
  p95 : ℚ
  p99 : ℚ
  error_count : ℕ
  error_rate : ℚ
  min_duration : ℚ
  max_duration : ℚ
  deriving DecidableEq, Repr

/-- Result row of tags statistics (models.py `TagStats`). -/
structure TagStats where
  tag : String
  avg : ℚ
  count : ℕ
  p95 : ℚ
  p99 : ℚ
  min_duration : ℚ
  max_duration : ℚ
  deriving DecidableEq, Repr

/-- One output row of `_get_aggregated_route_stats` (redis.py lines
358-381): averages and rates derived at read time, absent min/max read
as 0, percentiles reported as 0 on this pre-aggregated path. -/
def mkAggRouteStats (route : String) (row : RouteRow) : RouteStats :=
  { route := route
    avg := if row.count > 0 then row.total_duration / row.count else 0
    count := row.count
    p95 := 0
    p99 := 0
    error_count := row.error_count
    error_rate := errorRateAgg row.error_count row.count
    min_duration := row.min_duration.getD 0
    max_duration := row.max_duration.getD 0 }

/-- Model of `_get_aggregated_route_stats` (redis.py lines 348-383): one row
per indexed route whose stats hash exists. -/
def getAggregatedRouteStats (st : Store) : List RouteStats :=
  (get_all_routes st).filterMap (fun route => (st.routeRows route).map (mkAggRouteStats route))

/-- One output row of `_get_aggregated_tag_stats` (redis.py lines 325-344). -/
def mkAggTagStats (tag : String) (row : TagRow) : TagStats :=
  { tag := tag
    avg := if row.count > 0 then row.total_duration / row.count else 0
    count := row.count
    p95 := 0
    p99 := 0
    min_duration := row.min_duration.getD 0
    max_duration := row.max_duration.getD 0 }

/-- Model of `_get_aggregated_tag_stats` (redis.py lines 313-346). -/
def getAggregatedTagStats (st : Store) : List TagStats :=
  (get_all_tags st).filterMap (fun tag => (st.tagRows tag).map (mkAggTagStats tag))

/-- Model of `_get_aggregated_route_stats_for_tag` (redis.py lines 385-416):
the guard `stats_data and stats_data.get("count")` is hash presence (a hash
written by `save` always carries a count field, and hgetall returns strings,
so a present count field is truthy). -/
def getAggregatedRouteStatsForTag (st : Store) (tag : String) : List RouteStats :=
  (get_all_routes st).filterMap (fun route =>
    (st.routeTagRows route tag).map (fun row =>
      { route := route
        avg := if row.count > 0 then row.total_duration / row.count else 0
        count := row.count
        p95 := 0
        p99 := 0
        error_count := 0
        error_rate := 0
        min_duration := 0
        max_duration := 0 }))

/-- The boolean comparator `getattr(r, order_by)` induces for one of the five
record attributes; an unknown attribute name raises AttributeError inside
the sort key (modelled by `none` here and an error at the call site). -/
def keyLe (field : String) : Option (PerformanceRecord → PerformanceRecord → Bool) :=
  if field = "timestamp" then some (fun a b => decide (a.timestamp ≤ b.timestamp))
  else if field = "route" then some (fun a b => pyStrLe a.route b.route)
  else if field = "method" then some (fun a b => pyStrLe a.method b.method)
  else if field = "status_code" then some (fun a b => decide (a.status_code ≤ b.status_code))
  else if field = "duration" then some (fun a b => decide (a.duration ≤ b.duration))
  else none

/-- Python `sorted(records, key=..., reverse=...)`: a stable sort; with
reverse=True equal keys keep their original relative order, which the
stable mergesort with the flipped comparator reproduces. -/
def sortRecords (field : String) (desc : Bool) (records : List PerformanceRecord) :
    Except PyErr (List PerformanceRecord) :=
  match keyLe field with
  | none => Except.error PyErr.attributeError
  | some le => Except.ok (records.mergeSort (fun a b => if desc then le b a else le a b))

/-- Python iteration over a decoded JSON value (`for item in data`): lists
yield elements, strings yield 1-character strings, dicts yield their keys,
everything else raises TypeError. -/
def pyIter : PyJson → Except PyErr (List PyJson)
  | PyJson.arr items => Except.ok items
  | PyJson.str s => Except.ok (s.data.map (fun c => PyJson.str (String.mk [c])))
  | PyJson.obj fields => Except.ok (fields.map (fun f => PyJson.str f.1))
  | _ => Except.error PyErr.typeError

/-- Lookup in a decoded JSON object (later duplicate keys win, as in
`json.loads`). -/
def jsonLookup (fields : List (String × PyJson)) (k : String) : Option PyJson :=
  (fields.reverse.find? (fun f => f.1 == k)).map (fun f => f.2)

/-- Parse the digit list of the modelled isoformat text. -/
def parseDigits (l : List Char) : Option ℕ :=
  if l = [] then none
  else if l.all (fun c => decide (48 ≤ c.toNat ∧ c.toNat ≤ 57)) then
    some (l.foldl (fun acc c => 10 * acc + (c.toNat - 48)) 0)
  else none

/-- Model of `datetime.fromisoformat` on the modelled isoformat rendering:
succeeds exactly on well-formed datetime text, `none` meaning ValueError
(which the callers suppress). -/
def parseIso (s : String) : Option Int :=
  match s.data with
  | '-' :: rest => (parseDigits rest).map (fun n => -(n : Int))
  | l => (parseDigits l).map (fun n => (n : Int))

/-- JSON field access as a string. -/
def asStr : PyJson → Option String
  | PyJson.str s => some s
  | _ => none

/-- JSON field access as a number. -/
def asNum : PyJson → Option ℚ
  | PyJson.num q => some q
  | _ => none

/-- JSON field access as an integer. -/
def asInt : PyJson → Option Int
  | PyJson.num q => if q.den = 1 then some q.num else none
  | _ => none

/-- JSON field access as a list of strings. -/
def asStrList : PyJson → Option (List String)
  | PyJson.arr items => items.mapM asStr
  | _ => none

/-- Model of `PerformanceRecord.from_dict` (models.py lines 65-76): any
KeyError/ValueError/TypeError while reading the item is suppressed into
`none`. A non-dict item fails its first subscription. (Python applies no
type validation to the other fields; a value of an unexpected runtime type
would build an ill-typed record object, which the typed model maps to
`none` — no claim depends on that corner.) -/
def from_dict (item : PyJson) : Option PerformanceRecord :=
  match item with
  | PyJson.obj fields => do
    let rid ← (jsonLookup fields "request_id").bind asStr
    let tsS ← (jsonLookup fields "timestamp").bind asStr
    let ts ← parseIso tsS
    let dur ← (jsonLookup fields "duration").bind asNum
    let route ← (jsonLookup fields "route").bind asStr
    let sc ← (jsonLookup fields "status_code").bind asInt
    let m ← (jsonLookup fields "method").bind asStr
    let tags ← (jsonLookup fields "tags").bind asStrList
    some ⟨rid, ts, dur, route, sc, m, tags⟩
  | _ => none

/-- Model of `PerformanceRecord.from_dict_list` (models.py lines 53-63):
iterate the decoded payload (raising TypeError when it is not iterable) and
keep the items that parse. -/
def from_dict_list (data : PyJson) : Except PyErr (List PerformanceRecord) := do
  let items ← pyIter data
  Except.ok (items.filterMap from_dict)

/-- Model of `_get_cached_records` (redis.py lines 583-594): no entry or a
falsy entry is a miss; a JSONDecodeError is caught and turned into a miss;
any other decode outcome is passed to `from_dict_list`, whose TypeError is
NOT caught here. -/
def getCachedRecords (entry : Option CacheEntry) :
    Except PyErr (Option (List PerformanceRecord)) :=
  match entry with
  | none => Except.ok none
  | some CacheEntry.emptyStr => Except.ok none
  | some CacheEntry.badJson => Except.ok none
  | some (CacheEntry.json j) => (from_dict_list j).map some

/-- Stream selection of `fetch` (redis.py lines 203-208). -/
def selectStream (st : Store) (q : Query) : List PerformanceRecord :=
  match truthyStr q.tag with
  | some t => st.tagStreams t
  | none =>
    match truthyStr q.route with
    | some r => st.routeStreams r
    | none => st.mainStream

/-- The stream-id range test of the XREVRANGE call (redis.py lines 210-211):
inclusive on both bounds. -/
def timeOk (q : Query) (r : PerformanceRecord) : Bool :=
  (match q.since with | none => true | some s => decide (s ≤ r.timestamp)) &&
    (match q.until_ with | none => true | some u => decide (r.timestamp ≤ u))

/-- The XREVRANGE scan of `fetch` (redis.py lines 213-218): newest-first
entries within the id range, capped at `count=query.limit_records` BEFORE
any secondary filtering; redis-py rejects a count below 1 with DataError. -/
def xrevrangeScan (st : Store) (q : Query) : Except PyErr (List PerformanceRecord) :=
  let inRange := (selectStream st q).reverse.filter (timeOk q)
  match q.limit_records with
  | none => Except.ok inRange
  | some n => if n < 1 then Except.error PyErr.dataError else Except.ok (inRange.take n.toNat)

/-- The route_filter step of `fetch` (redis.py lines 221-222), applied only
when the attribute is present and truthy. -/
def filterRoute (q : Query) (records : List PerformanceRecord) : List PerformanceRecord :=
  match truthyStr q.route_filter with
  | some f => records.filter (fun r => decide (r.route = f))
  | none => records

/-- The tag_filter step of `fetch` (redis.py lines 224-225). -/
def filterTag (q : Query) (records : List PerformanceRecord) : List PerformanceRecord :=
  match truthyStr q.tag_filter with
  | some f => records.filter (fun r => decide (f ∈ r.tags))
  | none => records

/-- The status_code_filter step of `fetch` (redis.py lines 227-228). -/
def filterStatus (q : Query) (records : List PerformanceRecord) : List PerformanceRecord :=
  match truthyInt q.status_code_filter with
  | some c => records.filter (fun r => decide (r.status_code = c))
  | none => records

/-- The three secondary filters of `fetch` (redis.py lines 221-228), in
source order. -/
def applySecondaryFilters (q : Query) (records : List PerformanceRecord) :
    List PerformanceRecord :=
  filterStatus q (filterTag q (filterRoute q records))

/-- The ordering step of `fetch` (redis.py lines 230-234). -/
def applyOrdering (q : Query) (records : List PerformanceRecord) :
    Except PyErr (List PerformanceRecord) :=
  match truthyStr q.order_by_field with
  | none => Except.ok records
  | some f => sortRecords f (q.order_direction == "desc") records

/-- The cache-miss path of `fetch` (redis.py lines 203-237): scan, parse
(the identity here — stream entries are stored records), filter, order.
The write-back of the result into the cache does not affect the returned
value and is not part of the returned-value model. -/
def fetchCompute (st : Store) (q : Query) : Except PyErr (List PerformanceRecord) :=
  match xrevrangeScan st q with
  | Except.error e => Except.error e
  | Except.ok scanned => applyOrdering q (applySecondaryFilters q scanned)

/-- Model of `fetch` (redis.py lines 197-237): serve deserializable cached
records when present (an exception from the deserialization propagates),
otherwise compute from the streams. -/
def fetch (st : Store) (q : Query) : Except PyErr (List PerformanceRecord) :=
  match getCachedRecords (st.cache (cacheKeyString "fetch" q)) with
  | Except.error e => Except.error e
  | Except.ok (some records) => Except.ok records
  | Except.ok none => fetchCompute st q

/-- Boolean comparator for rationals (Python float comparison). -/
def ratLe (a b : ℚ) : Bool := decide (a ≤ b)

/-- The route groups of `_compute_route_stats_from_records` in first-seen
order (the defaultdict preserves insertion order). -/
def groupRoutes (records : List PerformanceRecord) : List String :=
  records.foldl (fun acc r => if r.route ∈ acc then acc else acc ++ [r.route]) []

/-- One per-route result of `_compute_route_stats_from_records`
(redis.py lines 494-539): totals, extrema and nearest-rank percentiles over
the group's durations; the float("inf") seed of min is observable only for
an empty group, which never arises. -/
def computeRouteStatsEntry (records : List PerformanceRecord) (route : String) :
    Except PyErr RouteStats := do
  let group := records.filter (fun r => decide (r.route = route))
  let durations := group.map (fun r => r.duration)
  let count := group.length
  let total := durations.sum
  let errors := group.countP (fun r => decide (r.status_code ≥ 400))
  let p95 ← percentile (durations.mergeSort ratLe) 95
  let p99 ← percentile (durations.mergeSort ratLe) 99
  Except.ok
    { route := route
      avg := if count ≠ 0 then total / count else 0
      count := count
      p95 := p95
      p99 := p99
      error_count := errors
      error_rate := if count ≠ 0 then (errors : ℚ) / count * 100 else 0
      min_duration := match durations with | [] => 0 | d :: ds => ds.foldl min d
      max_duration := match durations with | [] => 0 | d :: ds => ds.foldl max d }

/-- Model of `_compute_route_stats_from_records` (redis.py lines 494-539):
group by route, then sort by average descending (stable). -/
def computeRouteStatsFromRecords (records : List PerformanceRecord) :
    Except PyErr (List RouteStats) := do
  let entries ← (groupRoutes records).mapM (computeRouteStatsEntry records)
  Except.ok (entries.mergeSort (fun a b => ratLe b.avg a.avg))

/-- Model of `get_routes_stats` (redis.py lines 246-257): tag scope without
time bounds reads the route-tag aggregates; any time bound or scope falls
back to fetch-and-compute; otherwise the fully aggregated route stats. -/
def get_routes_stats (st : Store) (q : Query) : Except PyErr (List RouteStats) :=
  match truthyStr q.tag, q.since, q.until_ with
  | some t, none, none => Except.ok (getAggregatedRouteStatsForTag st t)
  | _, _, _ =>
    if q.since.isSome ∨ q.until_.isSome ∨ (truthyStr q.tag).isSome ∨
        (truthyStr q.route).isSome then do
      let records ← fetch st q
      computeRouteStatsFromRecords records
    else
      Except.ok (getAggregatedRouteStats st)

/-- The per-tag loop of `save` leaves every field other than the tag
streams, tag rows and route-tag rows untouched. -/
theorem foldl_tagStep_untouched (route : String) (rec : PerformanceRecord) (maxlen : ℕ) :
    ∀ (tags : List String) (st : Store),
      (tags.foldl (saveTagStep route rec maxlen) st).mainStream = st.mainStream ∧
      (tags.foldl (saveTagStep route rec maxlen) st).routeStreams = st.routeStreams ∧
      (tags.foldl (saveTagStep route rec maxlen) st).routeRows = st.routeRows ∧
      (tags.foldl (saveTagStep route rec maxlen) st).routeIndex = st.routeIndex ∧
      (tags.foldl (saveTagStep route rec maxlen) st).tagIndex = st.tagIndex ∧
      (tags.foldl (saveTagStep route rec maxlen) st).recordingFlag = st.recordingFlag ∧
      (tags.foldl (saveTagStep route rec maxlen) st).cache = st.cache ∧
      (tags.foldl (saveTagStep route rec maxlen) st).maxStreamLength = st.maxStreamLength := by
  intro tags
  induction tags with
  | nil => intro st; exact ⟨rfl, rfl, rfl, rfl, rfl, rfl, rfl, rfl⟩
  | cons t ts ih =>
    intro st
    rw [List.foldl_cons]
    exact ih (saveTagStep route rec maxlen st t)

/-- A disabled gate makes `save` the identity (redis.py lines 92-94). -/
theorem save_disabled (st : Store) (r : PerformanceRecord)
    (h : is_recording_enabled st = false) : save st r = st := by
  rw [save, h]
  rfl

theorem save_recordingFlag (st : Store) (r : PerformanceRecord) :
    (save st r).recordingFlag = st.recordingFlag := by
  rw [save]
  split
  · by_cases htags : r.tags.isEmpty <;>
      simp only [htags, if_true, if_false, Bool.false_eq_true] <;>
      first
        | rfl
        | exact (foldl_tagStep_untouched r.route r st.maxStreamLength r.tags _).2.2.2.2.2.1
  · rfl

theorem save_cache (st : Store) (r : PerformanceRecord) :
    (save st r).cache = st.cache := by
  rw [save]
  split
  · by_cases htags : r.tags.isEmpty <;>
      simp only [htags, if_true, if_false, Bool.false_eq_true] <;>
      first
        | rfl
        | exact (foldl_tagStep_untouched r.route r st.maxStreamLength r.tags _).2.2.2.2.2.2.1
  · rfl

theorem save_maxStreamLength (st : Store) (r : PerformanceRecord) :
    (save st r).maxStreamLength = st.maxStreamLength := by
  rw [save]
  split
  · by_cases htags : r.tags.isEmpty <;>
      simp only [htags, if_true, if_false, Bool.false_eq_true] <;>
      first
        | rfl
        | exact (foldl_tagStep_untouched r.route r st.maxStreamLength r.tags _).2.2.2.2.2.2.2
  · rfl

theorem save_mainStream (st : Store) (r : PerformanceRecord)
    (h : is_recording_enabled st = true) :
    (save st r).mainStream = capAppend st.mainStream r st.maxStreamLength := by
  rw [save, if_pos h]
  by_cases htags : r.tags.isEmpty <;>
    simp only [htags, if_true, if_false, Bool.false_eq_true] <;>
    first
      | rfl
      | exact (foldl_tagStep_untouched r.route r st.maxStreamLength r.tags _).1

theorem save_routeRows (st : Store) (r : PerformanceRecord)
    (h : is_recording_enabled st = true) :
    (save st r).routeRows = fun k =>
      if k = r.route then
        some (bumpRouteRow (st.routeRows k) r.duration (decide (r.status_code ≥ 400)))
      else st.routeRows k := by
  rw [save, if_pos h]
  by_cases htags : r.tags.isEmpty <;>
    simp only [htags, if_true, if_false, Bool.false_eq_true] <;>
    first
      | rfl
      | exact (foldl_tagStep_untouched r.route r st.maxStreamLength r.tags _).2.2.1

theorem save_routeIndex (st : Store) (r : PerformanceRecord)
    (h : is_recording_enabled st = true) :
    (save st r).routeIndex = sadd st.routeIndex r.route := by
  rw [save, if_pos h]
  by_cases htags : r.tags.isEmpty <;>
    simp only [htags, if_true, if_false, Bool.false_eq_true] <;>
    first
      | rfl
      | rw [(foldl_tagStep_untouched r.route r st.maxStreamLength r.tags _).2.2.2.1]

/-- With no cached entry under the key of the unrestricted query, `fetch`
returns the whole main stream newest-first. -/
theorem fetch_all_no_cache (st : Store)
    (h : st.cache (cacheKeyString "fetch" queryAll) = none) :
    fetch st queryAll = Except.ok st.mainStream.reverse := by
  have hfil : st.mainStream.reverse.filter (timeOk queryAll) = st.mainStream.reverse := by
    apply List.filter_eq_self.mpr
    intro a _
    rfl
  rw [fetch, h]
  show applyOrdering queryAll (applySecondaryFilters queryAll
    (st.mainStream.reverse.filter (timeOk queryAll))) = _
  rw [hfil]
  rfl

/-- A sample successful request record used by concrete witnesses. -/
def recGET : PerformanceRecord :=
  { request_id := "a", timestamp := 1000, duration := 1 / 2, route := "/api/users"
    status_code := 200, method := "GET", tags := [] }

/-- A sample failing tagged request record used by concrete witnesses. -/
def recERR : PerformanceRecord :=
  { request_id := "b", timestamp := 2000, duration := 3 / 2, route := "/api/users"
    status_code := 500, method := "GET", tags := ["db"] }

/-- C2: `is_recording_enabled` returns true when the flag was never set;
whenever it is false at the moment `save` is called, `save` leaves the
whole store (log, indices, every aggregate counter) unchanged; and the
disable / write / re-enable / write scenario yields a fetch of exactly the
second record. -/
theorem C2_recording_gate_noop :
    is_recording_enabled emptyStore = true ∧
      (∀ (st : Store) (r : PerformanceRecord),
        is_recording_enabled st = false → save st r = st) ∧
      (∀ (r1 r2 : PerformanceRecord),
        fetch (save (enable_recording (save (disable_recording emptyStore) r1)) r2) queryAll
          = Except.ok [r2]) := by
  refine ⟨rfl, save_disabled, ?_⟩
  intro r1 r2
  have h1 : save (disable_recording emptyStore) r1 = disable_recording emptyStore :=
    save_disabled _ _ (by with_unfolding_all rfl)
  rw [h1]
  have hen : is_recording_enabled (enable_recording (disable_recording emptyStore)) = true := by
    with_unfolding_all rfl
  have hcache :
      (save (enable_recording (disable_recording emptyStore)) r2).cache
        (cacheKeyString "fetch" queryAll) = none := by
    rw [save_cache]
    rfl
  rw [fetch_all_no_cache _ hcache, save_mainStream _ _ hen]
  show Except.ok (capAppend [] r2 1000000).reverse = _
  simp [capAppend]

/-- Witness for C2 at a concrete store and record: the gate check on a
disabled store evaluates to false and the theorem then gives the no-op. -/
theorem C2_recording_gate_noop_witness :
    is_recording_enabled (disable_recording emptyStore) = false ∧
      save (disable_recording emptyStore) recGET = disable_recording emptyStore :=
  ⟨by with_unfolding_all rfl,
    C2_recording_gate_noop.2.1 (disable_recording emptyStore) recGET (by with_unfolding_all rfl)⟩

theorem luaMin_some (m d : ℚ) : luaMin (some m) d = some (min m d) := by
  rw [luaMin]
  split
  · next h => rw [min_eq_right (le_of_lt h)]
  · next h => rw [min_eq_left (le_of_not_lt h)]

theorem luaMax_some (m d : ℚ) : luaMax (some m) d = some (max m d) := by
  rw [luaMax]
  split
  · next h => rw [max_eq_right (le_of_lt h)]
  · next h => rw [max_eq_left (le_of_not_lt h)]

/-- The running minimum a sequence of Lua min updates leaves in the hash. -/
def foldMin : List ℚ → Option ℚ
  | [] => none
  | d :: ds => some (ds.foldl min d)

/-- The running maximum a sequence of Lua max updates leaves in the hash. -/
def foldMax : List ℚ → Option ℚ
  | [] => none
  | d :: ds => some (ds.foldl max d)

theorem luaMin_foldMin (ds : List ℚ) (d : ℚ) : luaMin (foldMin ds) d = foldMin (ds ++ [d]) := by
  cases ds with
  | nil => rfl
  | cons d0 rest =>
    rw [foldMin, luaMin_some, List.cons_append, foldMin, List.foldl_append]
    rfl

theorem luaMax_foldMax (ds : List ℚ) (d : ℚ) : luaMax (foldMax ds) d = foldMax (ds ++ [d]) := by
  cases ds with
  | nil => rfl
  | cons d0 rest =>
    rw [foldMax, luaMax_some, List.cons_append, foldMax, List.foldl_append]
    rfl

/-- The per-route counter row that N saves of records with durations ds and
statuses cs leave behind: count N, summed durations, error count, and the
running extrema. -/
def expectedRouteRow (recs : List PerformanceRecord) : RouteRow :=
  { count := recs.length
    total_duration := (recs.map (fun r => r.duration)).sum
    error_count := recs.countP (fun r => decide (r.status_code ≥ 400))
    min_duration := foldMin (recs.map (fun r => r.duration))
    max_duration := foldMax (recs.map (fun r => r.duration)) }

theorem expectedRouteRow_snoc (l : List PerformanceRecord) (a : PerformanceRecord) :
    expectedRouteRow (l ++ [a]) =
      bumpRouteRow (if l = [] then none else some (expectedRouteRow l)) a.duration
        (decide (a.status_code ≥ 400)) := by
  by_cases hl : l = []
  · subst hl
    simp [expectedRouteRow, bumpRouteRow, luaMin, luaMax, foldMin, foldMax, List.countP_cons]
  · rw [if_neg hl]
    rw [expectedRouteRow, expectedRouteRow, bumpRouteRow]
    simp only [Option.getD_some]
    rw [RouteRow.mk.injEq]
    refine ⟨by simp, by simp, ?_, ?_, ?_⟩
    · rw [List.countP_append]
      simp [List.countP_cons]
    · rw [List.map_append,
        show List.map (fun r => r.duration) [a] = [a.duration] from rfl, ← luaMin_foldMin]
    · rw [List.map_append,
        show List.map (fun r => r.duration) [a] = [a.duration] from rfl, ← luaMax_foldMax]

theorem saveAll_single_route (rt : String) (recs : List PerformanceRecord)
    (hall : ∀ r ∈ recs, r.route = rt) :
    (saveAll emptyStore recs).recordingFlag = none ∧
      (saveAll emptyStore recs).routeIndex = (if recs = [] then [] else [rt]) ∧
      (saveAll emptyStore recs).routeRows rt =
        (if recs = [] then none else some (expectedRouteRow recs)) := by
  induction recs using List.reverseRecOn with
  | nil => exact ⟨rfl, rfl, rfl⟩
  | append_singleton l a ih =>
    have halll : ∀ r ∈ l, r.route = rt := fun r hr => hall r (List.mem_append_left _ hr)
    have haroute : a.route = rt := hall a (List.mem_append_right _ (by simp))
    obtain ⟨hflag, hidx, hrow⟩ := ih halll
    have hsnoc : saveAll emptyStore (l ++ [a]) = save (saveAll emptyStore l) a := by
      rw [saveAll, saveAll, List.foldl_append]
      rfl
    have hen : is_recording_enabled (saveAll emptyStore l) = true := by
      rw [is_recording_enabled, hflag]
    have hne : l ++ [a] ≠ [] := by simp
    refine ⟨?_, ?_, ?_⟩
    · rw [hsnoc, save_recordingFlag, hflag]
    · rw [hsnoc, save_routeIndex _ _ hen, hidx, haroute, if_neg hne]
      by_cases hl : l = []
      · rw [if_pos hl]
        rfl
      · rw [if_neg hl, sadd, if_pos (by simp)]
    · rw [hsnoc, save_routeRows _ _ hen, if_neg hne]
      simp only [haroute, eq_self_iff_true, if_true]
      rw [hrow, expectedRouteRow_snoc]

/-- On the unrestricted query, `get_routes_stats` reads the pre-aggregated
route stats (the final else of redis.py lines 246-257). -/
theorem get_routes_stats_all (st : Store) :
    get_routes_stats st queryAll = Except.ok (getAggregatedRouteStats st) := rfl

/-- After N same-route saves into the empty store, the unrestricted routes
statistics report exactly one row, derived from the accumulated counters. -/
theorem get_routes_stats_single_route (rt : String) (r0 : PerformanceRecord)
    (rest : List PerformanceRecord) (hall : ∀ r ∈ r0 :: rest, r.route = rt) :
    get_routes_stats (saveAll emptyStore (r0 :: rest)) queryAll =
      Except.ok [mkAggRouteStats rt (expectedRouteRow (r0 :: rest))] := by
  obtain ⟨hflag, hidx, hrow⟩ := saveAll_single_route rt (r0 :: rest) hall
  rw [get_routes_stats_all, getAggregatedRouteStats, get_all_routes, sortedStrings,
    if_neg (by simp : ¬(r0 :: rest = [])) ] at *
  rw [hidx]
  rw [List.mergeSort_singleton]
  rw [List.filterMap_cons, List.filterMap_nil, hrow]
  rfl

/-- C1: N same-route saves into an initially empty store (recording enabled
— the flag was never set) make the unrestricted `get_routes_stats` report
that route with count = N, avg = (d1 + ... + dN) / N, min_duration =
min(d1..dN) and max_duration = max(d1..dN). -/
theorem C1_aggregate_consistency (rt : String) (r0 : PerformanceRecord)
    (rest : List PerformanceRecord) (hall : ∀ r ∈ r0 :: rest, r.route = rt) :
    ∃ s, get_routes_stats (saveAll emptyStore (r0 :: rest)) queryAll = Except.ok [s] ∧
      s.route = rt ∧
      s.count = (r0 :: rest).length ∧
      s.avg = ((r0 :: rest).map (fun r => r.duration)).sum / ((r0 :: rest).length : ℚ) ∧
      s.min_duration = (rest.map (fun r => r.duration)).foldl min r0.duration ∧
      s.max_duration = (rest.map (fun r => r.duration)).foldl max r0.duration := by
  refine ⟨_, get_routes_stats_single_route rt r0 rest hall, rfl, rfl, ?_, ?_, ?_⟩
  · show (if (r0 :: rest).length > 0 then _ / ((r0 :: rest).length : ℚ) else 0) = _
    rw [if_pos (by simp)]
    rfl
  · show (foldMin ((r0 :: rest).map (fun r => r.duration))).getD 0 = _
    rw [List.map_cons, foldMin, Option.getD_some]
  · show (foldMax ((r0 :: rest).map (fun r => r.duration))).getD 0 = _
    rw [List.map_cons, foldMax, Option.getD_some]

/-- Witness for C1: two writes to "/api/users" with durations 1/2 and 3/2
give count 2, avg 1, min 1/2, max 3/2. -/
theorem C1_aggregate_consistency_witness :
    ∃ s, get_routes_stats (saveAll emptyStore [recGET, recERR]) queryAll = Except.ok [s] ∧
      s.route = "/api/users" ∧
      s.count = ([recGET, recERR] : List PerformanceRecord).length ∧
      s.avg = (([recGET, recERR] : List PerformanceRecord).map (fun r => r.duration)).sum /
        (([recGET, recERR] : List PerformanceRecord).length : ℚ) ∧
      s.min_duration = ([recERR].map (fun r => r.duration)).foldl min recGET.duration ∧
      s.max_duration = ([recERR].map (fun r => r.duration)).foldl max recGET.duration :=
  C1_aggregate_consistency "/api/users" recGET [recERR] (by decide)

/-- The error/success records of the C5 counterexample: one status-500 and
two status-200 writes, all of duration 1, to one route. -/
def c5rE : PerformanceRecord :=
  { request_id := "e", timestamp := 1000, duration := 1, route := "/r"
    status_code := 500, method := "GET", tags := [] }

def c5rS1 : PerformanceRecord :=
  { request_id := "s1", timestamp := 2000, duration := 1, route := "/r"
    status_code := 200, method := "GET", tags := [] }

def c5rS2 : PerformanceRecord :=
  { request_id := "s2", timestamp := 3000, duration := 1, route := "/r"
    status_code := 200, method := "GET", tags := [] }

/-- The stats row the backend actually reports for the C5 counterexample. -/
def c5Reported : RouteStats :=
  { route := "/r", avg := 1, count := 3, p95 := 0, p99 := 0, error_count := 1
    error_rate := 3333 / 100, min_duration := 1, max_duration := 1 }

/-- C5 counterexample: writing E = 1 error and S = 2 success records yields
a reported error_rate of 33.33 (the code rounds to 2 decimals), which is not
equal to E/(E+S)*100 = 100/3 — the claim of an exact error rate fails. -/
theorem C5_counterexample_error_rate_not_exact :
    get_routes_stats (saveAll emptyStore [c5rE, c5rS1, c5rS2]) queryAll
        = Except.ok [c5Reported] ∧
      c5Reported.error_count = 1 ∧ c5Reported.count = 3 ∧
      c5Reported.error_rate ≠ (1 : ℚ) / 3 * 100 := by
  refine ⟨by with_unfolding_all rfl, rfl, rfl, by with_unfolding_all decide⟩

/-- C5 (amended): for any positive number of same-route writes the reported
error_rate equals `round(error_count / count * 100, 2)` (two-decimal
round-half-to-even, exact only when E/(E+S)*100 has at most two decimals),
and the error-rate expression yields 0 when count = 0. -/
theorem C5_error_rate_rounded (rt : String) (r0 : PerformanceRecord)
    (rest : List PerformanceRecord) (hall : ∀ r ∈ r0 :: rest, r.route = rt) :
    (∀ e : ℕ, errorRateAgg e 0 = 0) ∧
      ∃ s, get_routes_stats (saveAll emptyStore (r0 :: rest)) queryAll = Except.ok [s] ∧
        s.route = rt ∧
        s.count = (r0 :: rest).length ∧
        s.error_count = (r0 :: rest).countP (fun r => decide (r.status_code ≥ 400)) ∧
        s.error_rate = round2
          ((((r0 :: rest).countP (fun r => decide (r.status_code ≥ 400)) : ℚ)) /
            ((r0 :: rest).length : ℚ) * 100) := by
  refine ⟨fun e => rfl, _, get_routes_stats_single_route rt r0 rest hall, rfl, rfl, rfl, ?_⟩
  show errorRateAgg _ (r0 :: rest).length = _
  rw [errorRateAgg, if_pos (by simp)]
  rfl

/-- Witness for C5 (amended) at the concrete three-record input. -/
theorem C5_error_rate_rounded_witness :
    (errorRateAgg 1 0 = 0) ∧
      ∃ s, get_routes_stats (saveAll emptyStore [c5rE, c5rS1, c5rS2]) queryAll
          = Except.ok [s] ∧
        s.route = "/r" ∧
        s.count = ([c5rE, c5rS1, c5rS2] : List PerformanceRecord).length ∧
        s.error_count = ([c5rE, c5rS1, c5rS2] : List PerformanceRecord).countP
          (fun r => decide (r.status_code ≥ 400)) ∧
        s.error_rate = round2
          (((([c5rE, c5rS1, c5rS2] : List PerformanceRecord).countP
              (fun r => decide (r.status_code ≥ 400)) : ℚ)) /
            (([c5rE, c5rS1, c5rS2] : List PerformanceRecord).length : ℚ) * 100) :=
  ⟨(C5_error_rate_rounded "/r" c5rE [c5rS1, c5rS2] (by decide)).1 1,
    (C5_error_rate_rounded "/r" c5rE [c5rS1, c5rS2] (by decide)).2⟩

/-- The invariant a per-route counter row satisfies in every reachable
store: positive count, both extrema fields present, min at most max. -/
def routeRowInv (row : RouteRow) : Prop :=
  0 < row.count ∧ row.min_duration.isSome = true ∧ row.max_duration.isSome = true ∧
    row.min_duration.getD 0 ≤ row.max_duration.getD 0

/-- The invariant a per-tag counter row satisfies in every reachable store. -/
def tagRowInv (row : TagRow) : Prop :=
  0 < row.count ∧ row.min_duration.isSome = true ∧ row.max_duration.isSome = true ∧
    row.min_duration.getD 0 ≤ row.max_duration.getD 0

theorem bumpRouteRow_inv (row : Option RouteRow) (d : ℚ) (e : Bool)
    (h : ∀ x, row = some x → routeRowInv x) : routeRowInv (bumpRouteRow row d e) := by
  cases row with
  | none => exact ⟨by simp [bumpRouteRow], rfl, rfl, le_refl d⟩
  | some x =>
    obtain ⟨hc, hmn, hmx, hle⟩ := h x rfl
    obtain ⟨mn, hmn2⟩ := Option.isSome_iff_exists.mp hmn
    obtain ⟨mx, hmx2⟩ := Option.isSome_iff_exists.mp hmx
    rw [hmn2, hmx2] at hle
    simp only [Option.getD_some] at hle
    refine ⟨by simp [bumpRouteRow], ?_, ?_, ?_⟩
    · show (luaMin x.min_duration d).isSome = true
      rw [hmn2, luaMin_some]
      rfl
    · show (luaMax x.max_duration d).isSome = true
      rw [hmx2, luaMax_some]
      rfl
    · show (luaMin x.min_duration d).getD 0 ≤ (luaMax x.max_duration d).getD 0
      rw [hmn2, hmx2, luaMin_some, luaMax_some]
      simp only [Option.getD_some]
      exact le_trans (le_trans (min_le_left _ _) hle) (le_max_left _ _)

theorem bumpTagRow_inv (row : Option TagRow) (d : ℚ)
    (h : ∀ x, row = some x → tagRowInv x) : tagRowInv (bumpTagRow row d) := by
  cases row with
  | none => exact ⟨by simp [bumpTagRow], rfl, rfl, le_refl d⟩
  | some x =>
    obtain ⟨hc, hmn, hmx, hle⟩ := h x rfl
    obtain ⟨mn, hmn2⟩ := Option.isSome_iff_exists.mp hmn
    obtain ⟨mx, hmx2⟩ := Option.isSome_iff_exists.mp hmx
    rw [hmn2, hmx2] at hle
    simp only [Option.getD_some] at hle
    refine ⟨by simp [bumpTagRow], ?_, ?_, ?_⟩
    · show (luaMin x.min_duration d).isSome = true
      rw [hmn2, luaMin_some]
      rfl
    · show (luaMax x.max_duration d).isSome = true
      rw [hmx2, luaMax_some]
      rfl
    · show (luaMin x.min_duration d).getD 0 ≤ (luaMax x.max_duration d).getD 0
      rw [hmn2, hmx2, luaMin_some, luaMax_some]
      simp only [Option.getD_some]
      exact le_trans (le_trans (min_le_left _ _) hle) (le_max_left _ _)

/-- Every route and tag counter row of a store satisfies its invariant. -/
def storeRowsInv (st : Store) : Prop :=
  (∀ k row, st.routeRows k = some row → routeRowInv row) ∧
    (∀ k row, st.tagRows k = some row → tagRowInv row)

theorem tagStep_rowsInv (route : String) (rec : PerformanceRecord) (maxlen : ℕ)
    (st : Store) (tag : String) (h : storeRowsInv st) :
    storeRowsInv (saveTagStep route rec maxlen st tag) := by
  refine ⟨h.1, ?_⟩
  intro k row hk
  simp only [saveTagStep] at hk
  by_cases hkt : k = tag
  · rw [if_pos hkt] at hk
    injection hk with hrow
    rw [← hrow]
    exact bumpTagRow_inv _ _ (fun x hx => h.2 k x hx)
  · rw [if_neg hkt] at hk
    exact h.2 k row hk

theorem foldl_tagStep_rowsInv (route : String) (rec : PerformanceRecord) (maxlen : ℕ) :
    ∀ (tags : List String) (st : Store), storeRowsInv st →
      storeRowsInv (tags.foldl (saveTagStep route rec maxlen) st) := by
  intro tags
  induction tags with
  | nil => exact fun st h => h
  | cons t ts ih =>
    intro st h
    rw [List.foldl_cons]
    exact ih _ (tagStep_rowsInv route rec maxlen st t h)

theorem updatedRouteRows_inv (st : Store) (r : PerformanceRecord) (h : storeRowsInv st)
    (k : String) (row : RouteRow)
    (hk : (if k = r.route then
        some (bumpRouteRow (st.routeRows k) r.duration (decide (r.status_code ≥ 400)))
      else st.routeRows k) = some row) : routeRowInv row := by
  by_cases hkr : k = r.route
  · rw [if_pos hkr] at hk
    injection hk with hrow
    rw [← hrow]
    exact bumpRouteRow_inv _ _ _ (fun x hx => h.1 k x hx)
  · rw [if_neg hkr] at hk
    exact h.1 k row hk

theorem save_rowsInv (st : Store) (r : PerformanceRecord) (h : storeRowsInv st) :
    storeRowsInv (save st r) := by
  by_cases hen : is_recording_enabled st = true
  · rw [save, if_pos hen]
    by_cases htags : r.tags.isEmpty <;>
      simp only [htags, if_true, if_false, Bool.false_eq_true]
    · exact ⟨fun k row hk => updatedRouteRows_inv st r h k row hk, h.2⟩
    · exact foldl_tagStep_rowsInv r.route r st.maxStreamLength r.tags _
        ⟨fun k row hk => updatedRouteRows_inv st r h k row hk, h.2⟩
  · rw [save_disabled st r (by simpa using hen)]
    exact h

theorem saveAll_rowsInv :
    ∀ (recs : List PerformanceRecord) (st : Store), storeRowsInv st →
      storeRowsInv (saveAll st recs) := by
  intro recs
  induction recs with
  | nil => exact fun st h => h
  | cons a as ih =>
    intro st h
    rw [saveAll, List.foldl_cons]
    exact ih (save st a) (save_rowsInv st a h)

/-- C7: in every store reachable by a sequence of saves from the empty
store, every existing route or tag counter row has count > 0 and
min_duration ≤ max_duration, and every reported aggregated stats row
likewise (a row with count = 0 is never stored, and the readers substitute
0 for both extrema of an absent row). -/
theorem C7_min_le_max_invariant (recs : List PerformanceRecord) :
    (∀ k row, (saveAll emptyStore recs).routeRows k = some row →
      0 < row.count ∧ row.min_duration.getD 0 ≤ row.max_duration.getD 0) ∧
      (∀ k row, (saveAll emptyStore recs).tagRows k = some row →
        0 < row.count ∧ row.min_duration.getD 0 ≤ row.max_duration.getD 0) ∧
      (∀ s ∈ getAggregatedRouteStats (saveAll emptyStore recs),
        0 < s.count ∧ s.min_duration ≤ s.max_duration) ∧
      (∀ s ∈ getAggregatedTagStats (saveAll emptyStore recs),
        0 < s.count ∧ s.min_duration ≤ s.max_duration) := by
  have hinv : storeRowsInv (saveAll emptyStore recs) :=
    saveAll_rowsInv recs emptyStore
      ⟨fun _ _ hk => Option.noConfusion hk, fun _ _ hk => Option.noConfusion hk⟩
  refine ⟨?_, ?_, ?_, ?_⟩
  · intro k row hk
    obtain ⟨hc, _, _, hle⟩ := hinv.1 k row hk
    exact ⟨hc, hle⟩
  · intro k row hk
    obtain ⟨hc, _, _, hle⟩ := hinv.2 k row hk
    exact ⟨hc, hle⟩
  · intro s hs
    rw [getAggregatedRouteStats] at hs
    obtain ⟨route, _, hmap⟩ := List.mem_filterMap.mp hs
    obtain ⟨row, hrow, hs2⟩ := Option.map_eq_some'.mp hmap
    obtain ⟨hc, _, _, hle⟩ := hinv.1 route row hrow
    rw [← hs2]
    exact ⟨hc, hle⟩
  · intro s hs
    rw [getAggregatedTagStats] at hs
    obtain ⟨tag, _, hmap⟩ := List.mem_filterMap.mp hs
    obtain ⟨row, hrow, hs2⟩ := Option.map_eq_some'.mp hmap
    obtain ⟨hc, _, _, hle⟩ := hinv.2 tag row hrow
    rw [← hs2]
    exact ⟨hc, hle⟩

/-- The route counter row left by one save of recERR. -/
def c7Row : RouteRow :=
  { count := 1, total_duration := 3 / 2, error_count := 1
    min_duration := some (3 / 2), max_duration := some (3 / 2) }

/-- Witness for C7: the concrete row after one save satisfies the
invariant. -/
theorem C7_min_le_max_invariant_witness :
    (saveAll emptyStore [recERR]).routeRows "/api/users" = some c7Row ∧
      0 < c7Row.count ∧ c7Row.min_duration.getD 0 ≤ c7Row.max_duration.getD 0 := by
  have h : (saveAll emptyStore [recERR]).routeRows "/api/users" = some c7Row := by
    with_unfolding_all rfl
  exact ⟨h, (C7_min_le_max_invariant [recERR]).1 "/api/users" c7Row h⟩

theorem length_filterRoute_le (q : Query) (l : List PerformanceRecord) :
    (filterRoute q l).length ≤ l.length := by
  rw [filterRoute]
  cases truthyStr q.route_filter
  · exact le_refl _
  · exact List.length_filter_le _ _

theorem length_filterTag_le (q : Query) (l : List PerformanceRecord) :
    (filterTag q l).length ≤ l.length := by
  rw [filterTag]
  cases truthyStr q.tag_filter
  · exact le_refl _
  · exact List.length_filter_le _ _

theorem length_filterStatus_le (q : Query) (l : List PerformanceRecord) :
    (filterStatus q l).length ≤ l.length := by
  rw [filterStatus]
  cases truthyInt q.status_code_filter
  · exact le_refl _
  · exact List.length_filter_le _ _

theorem mem_filterRoute (q : Query) (l : List PerformanceRecord) (r : PerformanceRecord)
    (h : r ∈ filterRoute q l) :
    r ∈ l ∧ ∀ f, truthyStr q.route_filter = some f → r.route = f := by
  rw [filterRoute] at h
  cases hq : truthyStr q.route_filter with
  | none =>
    rw [hq] at h
    exact ⟨h, fun f hf => Option.noConfusion hf⟩
  | some f0 =>
    rw [hq] at h
    obtain ⟨hmem, hpred⟩ := List.mem_filter.mp h
    refine ⟨hmem, fun f hf => ?_⟩
    injection hf with hf
    rw [← hf]
    exact of_decide_eq_true hpred

theorem mem_filterTag (q : Query) (l : List PerformanceRecord) (r : PerformanceRecord)
    (h : r ∈ filterTag q l) :
    r ∈ l ∧ ∀ f, truthyStr q.tag_filter = some f → f ∈ r.tags := by
  rw [filterTag] at h
  cases hq : truthyStr q.tag_filter with
  | none =>
    rw [hq] at h
    exact ⟨h, fun f hf => Option.noConfusion hf⟩
  | some f0 =>
    rw [hq] at h
    obtain ⟨hmem, hpred⟩ := List.mem_filter.mp h
    refine ⟨hmem, fun f hf => ?_⟩
    injection hf with hf
    rw [← hf]
    exact of_decide_eq_true hpred

theorem mem_filterStatus (q : Query) (l : List PerformanceRecord) (r : PerformanceRecord)
    (h : r ∈ filterStatus q l) :
    r ∈ l ∧ ∀ c, truthyInt q.status_code_filter = some c → r.status_code = c := by
  rw [filterStatus] at h
  cases hq : truthyInt q.status_code_filter with
  | none =>
    rw [hq] at h
    exact ⟨h, fun c hc => Option.noConfusion hc⟩
  | some c0 =>
    rw [hq] at h
    obtain ⟨hmem, hpred⟩ := List.mem_filter.mp h
    refine ⟨hmem, fun c hc => ?_⟩
    injection hc with hc
    rw [← hc]
    exact of_decide_eq_true hpred

/-- A successful ordering step is a permutation-shaped pass: it keeps the
length and the membership of the filtered records. -/
theorem applyOrdering_ok (q : Query) (l rs : List PerformanceRecord)
    (h : applyOrdering q l = Except.ok rs) :
    rs.length = l.length ∧ ∀ r, r ∈ rs → r ∈ l := by
  rw [applyOrdering] at h
  cases hq : truthyStr q.order_by_field with
  | none =>
    rw [hq] at h
    injection h with h
    rw [← h]
    exact ⟨rfl, fun r hr => hr⟩
  | some f =>
    rw [hq] at h
    simp only [sortRecords] at h
    cases hk : keyLe f with
    | none =>
      rw [hk] at h
      exact Except.noConfusion h
    | some le =>
      rw [hk] at h
      injection h with h
      rw [← h]
      exact ⟨List.length_mergeSort l, fun r hr => List.mem_mergeSort.mp hr⟩

theorem xrevrangeScan_limit (st : Store) (q : Query) (L : Int)
    (hL : q.limit_records = some L) (h1 : ¬L < 1) :
    xrevrangeScan st q =
      Except.ok (((selectStream st q).reverse.filter (timeOk q)).take L.toNat) := by
  rw [xrevrangeScan, hL]
  exact if_neg h1

/-- C3 (amended): `fetch` caps the scan at L entries BEFORE the secondary
filters, so with a limit L ≥ 1 and a cold cache it returns at most L
records, every one of them satisfying all present secondary filters — but
possibly fewer than L even when the log holds at least L matching records
(the counterexample), because non-matching newest entries use up the scan
budget. -/
theorem C3_limit_caps_scan_before_filters (st : Store) (q : Query) (L : Int)
    (rs : List PerformanceRecord)
    (hL : q.limit_records = some L) (hL1 : 1 ≤ L)
    (hc : st.cache (cacheKeyString "fetch" q) = none)
    (h : fetch st q = Except.ok rs) :
    rs.length ≤ L.toNat ∧
      ∀ r ∈ rs,
        (∀ f, truthyStr q.route_filter = some f → r.route = f) ∧
          (∀ f, truthyStr q.tag_filter = some f → f ∈ r.tags) ∧
          (∀ c, truthyInt q.status_code_filter = some c → r.status_code = c) := by
  rw [fetch, hc] at h
  have h2 : fetchCompute st q = Except.ok rs := h
  rw [fetchCompute, xrevrangeScan_limit st q L hL (by omega)] at h2
  have h3 : applyOrdering q (applySecondaryFilters q
      (((selectStream st q).reverse.filter (timeOk q)).take L.toNat)) = Except.ok rs := h2
  obtain ⟨hlen, hmem⟩ := applyOrdering_ok _ _ _ h3
  constructor
  · rw [hlen, applySecondaryFilters]
    calc (filterStatus q (filterTag q (filterRoute q _))).length
        ≤ (filterTag q (filterRoute q _)).length := length_filterStatus_le _ _
      _ ≤ (filterRoute q _).length := length_filterTag_le _ _
      _ ≤ (((selectStream st q).reverse.filter (timeOk q)).take L.toNat).length :=
          length_filterRoute_le _ _
      _ ≤ L.toNat := by
          rw [List.length_take]
          exact min_le_left _ _
  · intro r hr
    have hr2 := hmem r hr
    rw [applySecondaryFilters] at hr2
    obtain ⟨hr3, hstatus⟩ := mem_filterStatus _ _ _ hr2
    obtain ⟨hr4, htag⟩ := mem_filterTag _ _ _ hr3
    obtain ⟨_, hroute⟩ := mem_filterRoute _ _ _ hr4
    exact ⟨hroute, htag, hstatus⟩

/-- The records of the C3 counterexample: the older one matches the status
filter, the newer one does not; both carry tag "t". -/
def c3Old : PerformanceRecord :=
  { request_id := "o", timestamp := 1000, duration := 1, route := "/r"
    status_code := 200, method := "GET", tags := ["t"] }

def c3New : PerformanceRecord :=
  { request_id := "n", timestamp := 2000, duration := 1, route := "/r"
    status_code := 500, method := "GET", tags := ["t"] }

/-- The C3 counterexample query, as built by
`for_tag("t").filter_by_status_code(200).limit(1)`. -/
def c3Query : Query :=
  { tag := some "t", route := none, since := none, until_ := none
    order_by_field := none, order_direction := "desc", limit_records := some 1
    route_filter := none, tag_filter := none, status_code_filter := some 200 }

/-- C3 counterexample: the tag-scoped log holds exactly 1 record matching
the status filter (at least L = 1), yet fetch with limit 1 returns 0
records, because the scan is capped to the newest entry before filtering —
refuting the claim that the limit truncates the filtered result. -/
theorem C3_counterexample_limit_applied_before_filter :
    ((saveAll emptyStore [c3Old, c3New]).tagStreams "t").countP
        (fun r => decide (r.status_code = 200)) = 1 ∧
      c3Query.limit_records = some 1 ∧
      fetch (saveAll emptyStore [c3Old, c3New]) c3Query = Except.ok [] := by
  refine ⟨by with_unfolding_all rfl, rfl, by with_unfolding_all rfl⟩

/-- Witness for C3 (amended) at the counterexample input itself. -/
theorem C3_limit_caps_scan_before_filters_witness :
    ([] : List PerformanceRecord).length ≤ (1 : Int).toNat ∧
      ∀ r ∈ ([] : List PerformanceRecord),
        (∀ f, truthyStr c3Query.route_filter = some f → r.route = f) ∧
          (∀ f, truthyStr c3Query.tag_filter = some f → f ∈ r.tags) ∧
          (∀ c, truthyInt c3Query.status_code_filter = some c → r.status_code = c) :=
  C3_limit_caps_scan_before_filters (saveAll emptyStore [c3Old, c3New]) c3Query 1 []
    rfl (by norm_num) (by with_unfolding_all rfl) (by with_unfolding_all rfl)

/-- A one-record store over which the cache behaviour of C8 is observed. -/
def c8Base : Store := saveAll emptyStore [recGET]

/-- The cache key under which `fetch(queryAll)` looks up its result. -/
def c8Key : String := cacheKeyString "fetch" queryAll

/-- c8Base with a cached payload that decodes to the JSON number 5
(valid JSON, not a record list: iterating it raises TypeError). -/
def c8StoreNum : Store :=
  { c8Base with cache := fun k => if k = c8Key then some (CacheEntry.json (PyJson.num 5)) else none }

/-- c8Base with a cached payload that decodes to `[{}]` (a list whose only
item fails to parse as a record and is silently dropped). -/
def c8StoreArr : Store :=
  { c8Base with cache := fun k =>
      if k = c8Key then some (CacheEntry.json (PyJson.arr [PyJson.obj []])) else none }

/-- c8Base with a cached payload that raises JSONDecodeError. -/
def c8StoreBad : Store :=
  { c8Base with cache := fun k => if k = c8Key then some CacheEntry.badJson else none }

/-- C8 counterexample: only JSONDecodeError is treated as a miss. A cached
payload decoding to the JSON number 5 makes fetch raise TypeError, and a
payload decoding to [{}] makes fetch return [] although the fresh
computation over the same log returns the stored record — both contradict
"never raises because of cache content, behaves identically to a miss". -/
theorem C8_counterexample_cache_poisoning :
    fetch c8StoreNum queryAll = Except.error PyErr.typeError ∧
      fetch c8StoreArr queryAll = Except.ok [] ∧
      fetch c8Base queryAll = Except.ok [recGET] := by
  refine ⟨by with_unfolding_all rfl, by with_unfolding_all rfl, by with_unfolding_all rfl⟩

/-- C8 (amended): a cached entry that fails to JSON-decode (or is absent or
empty) is treated exactly as a cache miss — fetch recomputes from the log;
but a payload that decodes to a non-list JSON value raises TypeError, and
one that decodes to a list of unparseable items is served as a (possibly
empty) partial result. -/
theorem C8_bad_json_is_cache_miss (st : Store) (q : Query)
    (h : st.cache (cacheKeyString "fetch" q) = none ∨
      st.cache (cacheKeyString "fetch" q) = some CacheEntry.badJson ∨
      st.cache (cacheKeyString "fetch" q) = some CacheEntry.emptyStr) :
    fetch st q = fetchCompute st q := by
  rcases h with h | h | h <;> rw [fetch, h] <;> rfl

/-- Witness for C8 (amended): the undecodable payload at the concrete
store. -/
theorem C8_bad_json_is_cache_miss_witness :
    fetch c8StoreBad queryAll = fetchCompute c8StoreBad queryAll :=
  C8_bad_json_is_cache_miss c8StoreBad queryAll
    (Or.inr (Or.inl (by with_unfolding_all rfl)))

/-- Python whitespace for `str.strip()`. -/
def pyIsSpace (c : Char) : Bool :=
  decide (c.toNat = 32 ∨ c.toNat = 9 ∨ c.toNat = 10 ∨ c.toNat = 13 ∨
    c.toNat = 11 ∨ c.toNat = 12)

/-- Python `str.strip()`: drop leading and trailing whitespace. -/
def pyStrip (s : String) : String :=
  String.mk (((s.data.dropWhile pyIsSpace).reverse.dropWhile pyIsSpace).reverse)

/-- Digit character test for the int() model. -/
def isDigitCh (c : Char) : Bool := decide (48 ≤ c.toNat ∧ c.toNat ≤ 57)

/-- The digit body accepted by Python `int()`: digits with single
underscores strictly between digits. -/
def digitsUnder : List Char → Bool
  | [] => false
  | [c] => isDigitCh c
  | c :: d :: rest =>
    if isDigitCh c then
      if d = '_' then
        match rest with
        | [] => false
        | e :: _ => isDigitCh e && digitsUnder rest
      else isDigitCh d && digitsUnder (d :: rest)
    else false

/-- Value of a valid digit body. -/
def digitsVal (l : List Char) : Option ℕ :=
  if digitsUnder l then
    some ((l.filter (fun c => decide (c ≠ '_'))).foldl (fun a c => 10 * a + (c.toNat - 48)) 0)
  else none

/-- Model of Python `int(s)`: surrounding whitespace, an optional sign, a
decimal digit body; anything else raises ValueError (`none`). -/
def pyInt? (s : String) : Option Int :=
  match (pyStrip s).data with
  | '+' :: rest => (digitsVal rest).map (fun n => (n : Int))
  | '-' :: rest => (digitsVal rest).map (fun n => -(n : Int))
  | l => (digitsVal l).map (fun n => (n : Int))

/-- The GET parameters read by `BreakdownFilters.from_request`
(filters.py lines 48-79); `none` = parameter absent. -/
structure RequestParams where
  route : Option String
  status_code : Option String
  since : Option String
  until_ : Option String
  sort : Option String
  order : Option String

/-- filters.py lines 38-46. -/
def VALID_SORT_FIELDS : List String :=
  ["timestamp", "route", "method", "status_code", "duration"]

/-- The filter values `BreakdownFilters.from_request` builds
(filters.py lines 27-36). -/
structure BreakdownFilters where
  route : String
  status_code : Option Int
  since : Option Int
  until_ : Option Int
  sort : String
  order : String
  deriving DecidableEq, Repr

/-- Model of `_parse_date_range` (filters.py lines 8-24): empty parameters
give None, a ValueError from fromisoformat is suppressed into None. -/
def parse_date_range (g : RequestParams) : Option Int × Option Int :=
  let sinceStr := pyStrip (g.since.getD "")
  let untilStr := pyStrip (g.until_.getD "")
  (if sinceStr = "" then none else parseIso sinceStr,
    if untilStr = "" then none else parseIso untilStr)

/-- The status_code parse of `from_request` (filters.py lines 51-60): a
non-integer or out-of-range value becomes None. -/
def statusCodeOf (g : RequestParams) : Option Int :=
  let status_code := pyStrip (g.status_code.getD "")
  if status_code = "" then none
  else
    match pyInt? status_code with
    | some n => if 100 ≤ n ∧ n ≤ 599 then some n else none
    | none => none

/-- The sort-field selection of `from_request` (filters.py lines 64-66):
unknown fields become "timestamp". -/
def sortOf (g : RequestParams) : String :=
  let sort := g.sort.getD "timestamp"
  if sort ∈ VALID_SORT_FIELDS then sort else "timestamp"

/-- The order selection of `from_request` (filters.py lines 68-70):
anything but "asc"/"desc" becomes "desc". -/
def orderOf (g : RequestParams) : String :=
  let order := g.order.getD "desc"
  if order = "asc" ∨ order = "desc" then order else "desc"

/-- Model of `BreakdownFilters.from_request` (filters.py lines 48-79). -/
def from_request (g : RequestParams) : BreakdownFilters :=
  { route := pyStrip (g.route.getD "")
    status_code := statusCodeOf g
    since := (parse_date_range g).1
    until_ := (parse_date_range g).2
    sort := sortOf g
    order := orderOf g }

/-- C9: building filters from request parameters is total and substitutes
safe defaults: the sort field always lands in the valid set ("timestamp"
whenever the parameter was invalid), the status-code filter is only kept
when inside 100..599 (dropped otherwise, including non-integers), and the
order always lands in {"asc", "desc"} ("desc" whenever invalid). -/
theorem C9_filters_safe_defaults (g : RequestParams) :
    (from_request g).sort ∈ VALID_SORT_FIELDS ∧
      ((from_request g).order = "asc" ∨ (from_request g).order = "desc") ∧
      (∀ c, (from_request g).status_code = some c → 100 ≤ c ∧ c ≤ 599) ∧
      (∀ s, g.sort = some s → s ∉ VALID_SORT_FIELDS → (from_request g).sort = "timestamp") ∧
      (∀ s, g.order = some s → s ≠ "asc" → s ≠ "desc" → (from_request g).order = "desc") := by
  refine ⟨?_, ?_, ?_, ?_, ?_⟩
  · show sortOf g ∈ VALID_SORT_FIELDS
    rw [sortOf]
    split
    · next h => exact h
    · next => simp [VALID_SORT_FIELDS]
  · show orderOf g = "asc" ∨ orderOf g = "desc"
    rw [orderOf]
    split
    · next h => exact h
    · next => exact Or.inr rfl
  · intro c hc
    have hc2 : statusCodeOf g = some c := hc
    rw [statusCodeOf] at hc2
    split at hc2
    · exact Option.noConfusion hc2
    · cases hp : pyInt? (pyStrip (g.status_code.getD "")) with
      | none =>
        rw [hp] at hc2
        exact Option.noConfusion hc2
      | some n =>
        rw [hp] at hc2
        have hc3 : (if 100 ≤ n ∧ n ≤ 599 then some n else none) = some c := hc2
        split at hc3
        · next hrange =>
          injection hc3 with hc3
          rw [← hc3]
          exact hrange
        · exact Option.noConfusion hc3
  · intro s hs hnot
    show sortOf g = "timestamp"
    rw [sortOf, hs]
    simp only [Option.getD_some]
    rw [if_neg hnot]
  · intro s hs h1 h2
    show orderOf g = "desc"
    rw [orderOf, hs]
    simp only [Option.getD_some]
    rw [if_neg (by simp [h1, h2])]

/-- Concrete invalid request parameters for the C9 witness. -/
def c9Params : RequestParams :=
  { route := some "/x", status_code := some "700", since := none, until_ := none
    sort := some "bogus", order := some "up" }

/-- Witness for C9: an unknown sort field, an out-of-range status code and
an invalid order all collapse to the safe defaults. -/
theorem C9_filters_safe_defaults_witness :
    (from_request c9Params).sort ∈ VALID_SORT_FIELDS ∧
      (from_request c9Params).sort = "timestamp" ∧
      (from_request c9Params).order = "desc" :=
  ⟨(C9_filters_safe_defaults c9Params).1,
    (C9_filters_safe_defaults c9Params).2.2.2.1 "bogus" rfl (by decide),
    (C9_filters_safe_defaults c9Params).2.2.2.2 "up" rfl (by decide) (by decide)⟩

theorem strAppend_cancel_left {a b c : String} (h : a ++ b = a ++ c) : b = c := by
  apply String.ext
  have hd := congrArg String.data h
  simp only [String.data_append] at hd
  exact List.append_cancel_left hd

theorem strAppend_cancel_right {a b c : String} (h : a ++ c = b ++ c) : a = b := by
  apply String.ext
  have hd := congrArg String.data h
  simp only [String.data_append] at hd
  exact List.append_cancel_right hd

/-- Distinct optional datetimes always serialize to distinct key parts
(a present datetime serializes nonempty and the rendering is injective). -/
theorem optIso_inj {t1 t2 : Option Int} (h : optIso t1 = optIso t2) : t1 = t2 := by
  cases t1 with
  | none =>
    cases t2 with
    | none => rfl
    | some t =>
      rw [optIso, optIso] at h
      exact absurd h.symm (intStr_ne_empty t)
  | some t =>
    cases t2 with
    | none =>
      rw [optIso, optIso] at h
      exact absurd h (intStr_ne_empty t)
    | some t2 =>
      rw [optIso, optIso] at h
      rw [intStr_inj h]

theorem truthyInt_eq_some {l : Option Int} {n : Int} (h : truthyInt l = some n) : l = some n := by
  cases l with
  | none => exact Option.noConfusion h
  | some m =>
    rw [truthyInt] at h
    split at h
    · exact Option.noConfusion h
    · injection h with h
      rw [h]

/-- Two limits serialize to distinct key parts unless both are falsy
(None or 0), which is the collision of the counterexample. -/
theorem limitStr_inj {l1 l2 : Option Int}
    (hf : ¬(truthyInt l1 = none ∧ truthyInt l2 = none)) (hne : l1 ≠ l2) :
    limitStr l1 ≠ limitStr l2 := by
  cases h1 : truthyInt l1 with
  | none =>
    cases h2 : truthyInt l2 with
    | none => exact absurd ⟨h1, h2⟩ hf
    | some n2 =>
      rw [limitStr, limitStr, h1, h2]
      exact fun he => intStr_ne_empty n2 he.symm
  | some n1 =>
    cases h2 : truthyInt l2 with
    | none =>
      rw [limitStr, limitStr, h1, h2]
      exact intStr_ne_empty n1
    | some n2 =>
      rw [limitStr, limitStr, h1, h2]
      intro he
      exact hne (by rw [truthyInt_eq_some h1, truthyInt_eq_some h2, intStr_inj he])

/-- Two order-by fields serialize to distinct key parts unless both are
falsy (None or the empty string). -/
theorem orderFieldStr_inj {o1 o2 : Option String}
    (hf : ¬(o1.getD "" = "" ∧ o2.getD "" = "")) (hne : o1 ≠ o2) :
    o1.getD "" ≠ o2.getD "" := by
  cases o1 with
  | none =>
    cases o2 with
    | none => exact absurd rfl hne
    | some s =>
      intro he
      exact hf ⟨rfl, he.symm⟩
  | some s =>
    cases o2 with
    | none =>
      intro he
      exact hf ⟨he, rfl⟩
    | some s2 =>
      intro he
      simp only [Option.getD_some] at he
      exact hne (by rw [he])

theorem cacheKeyString_since_shape (op : String) (q : Query) (t : Option Int) :
    cacheKeyString op { q with since := t } =
      (op ++ "|" ++ q.tag.getD "" ++ "|" ++ q.route.getD "" ++ "|") ++ optIso t ++
        ("|" ++ optIso q.until_ ++ "|" ++ q.order_by_field.getD "" ++ "|" ++
          q.order_direction ++ "|" ++ limitStr q.limit_records ++ "|" ++
          q.route_filter.getD "" ++ "|" ++ q.tag_filter.getD "" ++ "|" ++
          statusStr q.status_code_filter) := by
  rw [cacheKeyString]
  simp only [String.append_assoc]

theorem cacheKeyString_limit_shape (op : String) (q : Query) (l : Option Int) :
    cacheKeyString op { q with limit_records := l } =
      (op ++ "|" ++ q.tag.getD "" ++ "|" ++ q.route.getD "" ++ "|" ++ optIso q.since ++
        "|" ++ optIso q.until_ ++ "|" ++ q.order_by_field.getD "" ++ "|" ++
        q.order_direction ++ "|") ++ limitStr l ++
        ("|" ++ q.route_filter.getD "" ++ "|" ++ q.tag_filter.getD "" ++ "|" ++
          statusStr q.status_code_filter) := by
  rw [cacheKeyString]
  simp only [String.append_assoc]

theorem cacheKeyString_orderBy_shape (op : String) (q : Query) (o : Option String) :
    cacheKeyString op { q with order_by_field := o } =
      (op ++ "|" ++ q.tag.getD "" ++ "|" ++ q.route.getD "" ++ "|" ++ optIso q.since ++
        "|" ++ optIso q.until_ ++ "|") ++ o.getD "" ++
        ("|" ++ q.order_direction ++ "|" ++ limitStr q.limit_records ++ "|" ++
          q.route_filter.getD "" ++ "|" ++ q.tag_filter.getD "" ++ "|" ++
          statusStr q.status_code_filter) := by
  rw [cacheKeyString]
  simp only [String.append_assoc]

/-- Replacing one key part by a differently serialized one changes the
joined key string: strings over the free monoid cancel on both sides. -/
theorem keyString_part_ne {A B x y : String} (h : x ≠ y) : A ++ x ++ B ≠ A ++ y ++ B :=
  fun he => h (strAppend_cancel_left (strAppend_cancel_right he))

/-- C6 (amended): the cache key string is deterministic in the spec, and
two specs differing only in since always get different key strings; two
specs differing only in limit or only in orderByField get different key
strings unless the two values of that field both serialize to the empty
string (limit None vs 0, orderByField None vs "") — those falsy pairs
collide, as the counterexample shows. Distinct key strings give distinct
MD5-hashed cache keys up to an MD5 collision. -/
theorem C6_cache_key_distinctness :
    (∀ (op : String) (q1 q2 : Query), q1 = q2 →
      cacheKeyString op q1 = cacheKeyString op q2) ∧
      (∀ (op : String) (q : Query) (t1 t2 : Option Int), t1 ≠ t2 →
        cacheKeyString op { q with since := t1 } ≠ cacheKeyString op { q with since := t2 }) ∧
      (∀ (op : String) (q : Query) (l1 l2 : Option Int),
        ¬(truthyInt l1 = none ∧ truthyInt l2 = none) → l1 ≠ l2 →
        cacheKeyString op { q with limit_records := l1 } ≠
          cacheKeyString op { q with limit_records := l2 }) ∧
      (∀ (op : String) (q : Query) (o1 o2 : Option String),
        ¬(o1.getD "" = "" ∧ o2.getD "" = "") → o1 ≠ o2 →
        cacheKeyString op { q with order_by_field := o1 } ≠
          cacheKeyString op { q with order_by_field := o2 }) := by
  refine ⟨fun op q1 q2 h => by rw [h], ?_, ?_, ?_⟩
  · intro op q t1 t2 hne
    rw [cacheKeyString_since_shape, cacheKeyString_since_shape]
    exact keyString_part_ne (fun he => hne (optIso_inj he))
  · intro op q l1 l2 hf hne
    rw [cacheKeyString_limit_shape, cacheKeyString_limit_shape]
    exact keyString_part_ne (limitStr_inj hf hne)
  · intro op q o1 o2 hf hne
    rw [cacheKeyString_orderBy_shape, cacheKeyString_orderBy_shape]
    exact keyString_part_ne (orderFieldStr_inj hf hne)

/-- Witness for C6 (amended): concrete distinctness in each of the three
fields the claim names. -/
theorem C6_cache_key_distinctness_witness :
    cacheKeyString "fetch" { queryAll with since := some 1000 } ≠
        cacheKeyString "fetch" { queryAll with since := some 2000 } ∧
      cacheKeyString "fetch" { queryAll with limit_records := some 10 } ≠
        cacheKeyString "fetch" { queryAll with limit_records := some 20 } ∧
      cacheKeyString "fetch" { queryAll with order_by_field := some "duration" } ≠
        cacheKeyString "fetch" { queryAll with order_by_field := some "route" } :=
  ⟨C6_cache_key_distinctness.2.1 "fetch" queryAll (some 1000) (some 2000) (by decide),
    C6_cache_key_distinctness.2.2.1 "fetch" queryAll (some 10) (some 20)
      (by with_unfolding_all decide) (by decide),
    C6_cache_key_distinctness.2.2.2 "fetch" queryAll (some "duration") (some "route")
      (by decide) (by decide)⟩

/-- C6 counterexample: the specs differing only in limit — None versus 0 —
serialize identically (`str(query.limit_records or "")` collapses both to
the empty string), so their cache key strings, hence their MD5 cache keys,
coincide: the claim that any two specs differing in limit never collide is
false. -/
theorem C6_counterexample_limit_none_vs_zero :
    (queryAll ≠ { queryAll with limit_records := some 0 }) ∧
      queryAll.limit_records ≠ (some 0 : Option Int) ∧
      cacheKeyString "fetch" queryAll =
        cacheKeyString "fetch" { queryAll with limit_records := some 0 } := by
  refine ⟨by decide, by decide, by with_unfolding_all rfl⟩

/-- The ascending list 1, 2, ..., 100 used by the percentile boundary claim. -/
def oneToHundred : List ℚ := (List.range 100).map (fun i => ((i : ℚ) + 1))

example : percentile [] 95 = Except.ok 0 := by with_unfolding_all rfl
example : percentile [3] 99 = Except.ok 3 := by with_unfolding_all rfl
example : percentile [1, 2, 3, 4] 50 = Except.ok 2 := by with_unfolding_all rfl

/-- Helper: for a nonempty list and p ≤ 100 the nearest-rank index is in
bounds, hence the percentile computation succeeds. -/
theorem percentileIdx_lt_length (l : List ℚ) (p : ℚ) (hne : l ≠ []) (h100 : p ≤ 100) :
    percentileIdx p l.length < l.length := by
  have hn : 0 < l.length := List.length_pos.mpr hne
  have hcle : pyCeil (p / 100 * l.length) ≤ (l.length : ℤ) := by
    rw [pyCeil_eq_ceil]
    apply Int.ceil_le.mpr
    push_cast
    calc p / 100 * l.length ≤ 1 * l.length := by
          apply mul_le_mul_of_nonneg_right _ (by positivity)
          linarith
      _ = l.length := one_mul _
  rw [percentileIdx]
  apply max_lt (by exact_mod_cast hn) (by omega)

/-- Helper: with the index in bounds, `percentile` returns the element at
that index. -/
theorem percentile_ok_of_ne_nil (l : List ℚ) (p : ℚ) (hne : l ≠ [])
    (hlt : percentileIdx p l.length < l.length) :
    percentile l p = Except.ok (l.getD (percentileIdx p l.length).toNat 0) := by
  have hidx0 : (0 : ℤ) ≤ percentileIdx p l.length := le_max_left _ _
  have htoNat : (percentileIdx p l.length).toNat < l.length := by omega
  rw [percentile, if_neg hne, pyListGet, dif_pos ⟨hidx0, htoNat⟩]
  congr 1
  rw [List.get_eq_getElem, List.getD_eq_getElem?_getD, List.getElem?_eq_getElem htoNat]
  rfl

/-- C10: for every nonempty list of n durations and every percentile
0 ≤ p ≤ 100, the nearest-rank index max(0, ceil(p/100 * n) - 1) lies within
bounds (0 ≤ index < n), so the list access inside `_percentile` cannot go
out of range: the computation returns a value and never raises. -/
theorem C10_percentile_index_in_bounds (l : List ℚ) (p : ℚ)
    (hne : l ≠ []) (hp0 : 0 ≤ p) (hp100 : p ≤ 100) :
    0 ≤ percentileIdx p l.length ∧ percentileIdx p l.length < l.length ∧
      ∃ v, percentile l p = Except.ok v := by
  have hlt := percentileIdx_lt_length l p hne hp100
  exact ⟨le_max_left _ _, hlt, _, percentile_ok_of_ne_nil l p hne hlt⟩

/-- Witness for C10 at the concrete input l = [1, 2, 3, 4], p = 95. -/
theorem C10_percentile_index_in_bounds_witness :
    0 ≤ percentileIdx 95 ([1, 2, 3, 4] : List ℚ).length ∧
      percentileIdx 95 ([1, 2, 3, 4] : List ℚ).length < ([1, 2, 3, 4] : List ℚ).length ∧
      ∃ v, percentile [1, 2, 3, 4] 95 = Except.ok v :=
  C10_percentile_index_in_bounds [1, 2, 3, 4] 95 (by simp) (by norm_num) (by norm_num)

/-- C4 counterexample: the claim asserts `percentile([x], p) == x` for every
percentile p, but at p = 101 the computed index is 1, outside the singleton
list, and the subscription raises IndexError instead of returning x. -/
theorem C4_counterexample_percentile_singleton_raises :
    percentile [5] 101 = Except.error PyErr.indexError ∧
      percentile [5] 101 ≠ Except.ok 5 := by
  constructor
  · with_unfolding_all rfl
  · intro h
    have h2 : percentile [5] 101 = Except.error PyErr.indexError := by with_unfolding_all rfl
    rw [h2] at h
    exact Except.noConfusion h

/-- C4 (amended): `_percentile` implements nearest-rank semantics — for a
nonempty sorted list it returns the element at index
max(0, ceil(p/100 * n) - 1) whenever that index is below n (always the case
for p ≤ 100); percentile([], p) = 0 for every p; percentile([x], p) = x for
every p ≤ 100 (for p > 100 the access can raise IndexError);
percentile([1..100], 95) = 95 and percentile([1..100], 99) = 99. -/
theorem C4_percentile_nearest_rank :
    (∀ p : ℚ, percentile [] p = Except.ok 0) ∧
      (∀ (x : ℚ) (p : ℚ), p ≤ 100 → percentile [x] p = Except.ok x) ∧
      percentile oneToHundred 95 = Except.ok 95 ∧
      percentile oneToHundred 99 = Except.ok 99 ∧
      (∀ (l : List ℚ) (p : ℚ), l ≠ [] → percentileIdx p l.length < l.length →
        percentile l p = Except.ok (l.getD (percentileIdx p l.length).toNat 0)) := by
  refine ⟨fun p => by rw [percentile, if_pos rfl], ?_, ?_, ?_, ?_⟩
  · intro x p hp
    have hne : ([x] : List ℚ) ≠ [] := by simp
    have hlt := percentileIdx_lt_length [x] p hne hp
    have h := percentile_ok_of_ne_nil [x] p hne hlt
    have hlen : ([x] : List ℚ).length = 1 := rfl
    rw [hlen] at hlt
    have hidx0 : (0 : ℤ) ≤ percentileIdx p ([x] : List ℚ).length := le_max_left _ _
    have : (percentileIdx p ([x] : List ℚ).length).toNat = 0 := by
      rw [hlen] at hidx0 ⊢
      omega
    rw [this] at h
    exact h
  · with_unfolding_all rfl
  · with_unfolding_all rfl
  · exact fun l p hne hlt => percentile_ok_of_ne_nil l p hne hlt

/-- Witness for the hypotheses of C4 (amended): the singleton clause at
x = 7, p = 50, and the general clause at l = [2, 4], p = 50. -/
theorem C4_percentile_nearest_rank_witness :
    percentile [7] 50 = Except.ok 7 ∧
      percentile [2, 4] 50 = Except.ok (([2, 4] : List ℚ).getD
        (percentileIdx 50 ([2, 4] : List ℚ).length).toNat 0) :=
  ⟨C4_percentile_nearest_rank.2.1 7 50 (by norm_num),
    C4_percentile_nearest_rank.2.2.2.2 [2, 4] 50 (by simp)
      (by with_unfolding_all decide)⟩

end VPM
